import Mathlib

/-!
Verification of the request parser of the chatty repository.

The parser under study is `parse_request` in `src/http.rs`.  It is a pure
function from the raw request text to either a parsed `HttpRequest` or a
boxed error carrying one of six message strings.  We embed it shallowly:
the request text is a `List Char`, the borrowed `&str` slices of the result
are the corresponding character lists, and the error is the message string
itself.  Rust's `lines().next().unwrap()` panics when the iterator is empty
(exactly on the empty input), so the embedded result type has a dedicated
`panics` constructor alongside `err` and `ok`.
-/

namespace Chatty

/-- White_Space test used by Rust's `char::is_whitespace`, which is what
`str::split_whitespace` splits on (the Unicode White_Space property). -/
def isWs (c : Char) : Bool :=
  decide ((9 ≤ c.toNat ∧ c.toNat ≤ 13) ∨ c.toNat = 32 ∨ c.toNat = 133 ∨
    c.toNat = 160 ∨ c.toNat = 5760 ∨ (8192 ≤ c.toNat ∧ c.toNat ≤ 8202) ∨
    c.toNat = 8232 ∨ c.toNat = 8233 ∨ c.toNat = 8239 ∨ c.toNat = 8287 ∨
    c.toNat = 12288)

/-- Accumulator loop of `str::split_whitespace`: runs of whitespace separate
maximal non-whitespace tokens; no empty tokens are produced. -/
def splitWsAux : List Char → List Char → List (List Char)
  | [], acc => if acc = [] then [] else [acc.reverse]
  | c :: rest, acc =>
    if isWs c then
      (if acc = [] then splitWsAux rest [] else acc.reverse :: splitWsAux rest [])
    else splitWsAux rest (c :: acc)

/-- Embedding of `str::split_whitespace` on character lists. -/
def splitWs (s : List Char) : List (List Char) :=
  splitWsAux s []

/-- Characters strictly before the first line feed. -/
def takeUntilLF (s : List Char) : List Char :=
  s.takeWhile (fun c => c != '\n')

/-- Drop one trailing carriage return, if present. -/
def stripTrailingCR (s : List Char) : List Char :=
  if s.getLast? = some '\r' then s.dropLast else s

/-- First item of Rust's `str::lines` on a non-empty string: the content up
to the first `'\n'` with one trailing `'\r'` stripped; when the string holds
no `'\n'` at all, the whole string unchanged (a bare trailing `'\r'` is kept
by `lines`, it is only stripped as part of a CRLF ending). -/
def firstLine (s : List Char) : List Char :=
  if '\n' ∈ s then stripTrailingCR (takeUntilLF s) else s

/-- Embedding of `request.ends_with "\r\n"`. -/
def endsWithCRLF (s : List Char) : Bool :=
  decide (s.reverse.take 2 = ['\n', '\r'])

/-- Embedding of `request.find "\r\n"`: index of the first CRLF occurrence. -/
def findCRLF : List Char → Option Nat
  | [] => none
  | c :: rest =>
    if c = '\r' ∧ rest.head? = some '\n' then some 0
    else (findCRLF rest).map (· + 1)

/-- Embedding of `request.rfind "\r\n"`: index of the last CRLF occurrence. -/
def rfindCRLF : List Char → Option Nat
  | [] => none
  | c :: rest =>
    match rfindCRLF rest with
    | some j => some (j + 1)
    | none => if c = '\r' ∧ rest.head? = some '\n' then some 0 else none

/-- The six methods of the first match arm of `parse_request`, the group
that carries no body. -/
def noBodyMethods : List (List Char) :=
  ["GET", "HEAD", "DELETE", "CONNECT", "OPTIONS", "TRACE"].map String.data

/-- The three methods of the second match arm of `parse_request`, the group
that requires a body. -/
def bodyMethods : List (List Char) :=
  ["POST", "PUT", "PATCH"].map String.data

/-- The single supported version literal. -/
def httpOneOne : List Char := "HTTP/1.1".data

/-- Embedding of the `HttpRequest` struct of `src/http.rs`.  The `uri` field
is the raw second token (the source wraps it in `Path::new`, which stores the
token bytes verbatim). -/
structure HttpRequest where
  http_method : List Char
  uri : List Char
  http_version : List Char
  body : Option (List Char)
deriving DecidableEq, Repr

/-- Outcome of a call to `parse_request`: a panic (Rust `unwrap` on `None`),
a returned error carrying the source's message string, or a parsed record. -/
inductive ParseResult where
  | panics
  | err (msg : String)
  | ok (req : HttpRequest)
deriving DecidableEq, Repr

/-- Tail of `parse_request` after the method match: the source pulls the
second and third whitespace tokens off the iterator (`URI not specified` /
`HTTP version not specified` when absent), rejects any version other than
`HTTP/1.1`, and otherwise assembles the record. -/
def finishParse (parts : List (List Char)) (method : List Char)
    (body : Option (List Char)) : ParseResult :=
  match parts[1]? with
  | none => .err "URI not specified"
  | some uri =>
    match parts[2]? with
    | none => .err "HTTP version not specified"
    | some http_version =>
      if http_version ≠ httpOneOne then .err "Only HTTP/1.1 is supported!"
      else .ok ⟨method, uri, http_version, body⟩

/-- Embedding of `parse_request` of `src/http.rs`, step for step: first line
via `lines().next().unwrap()` (panic on empty input), first whitespace token
as the method, the `ends_with "\r\n"` guard, the three-way method match with
CRLF boundary scanning for the body group, then target/version extraction
and the version gate. -/
def parse_request (request : List Char) : ParseResult :=
  if request = [] then .panics
  else
    match (splitWs (firstLine request)).head? with
    | none => .err "Method not specified!"
    | some method =>
      if endsWithCRLF request = false then .err "Bad request!"
      else if method ∈ noBodyMethods then
        finishParse (splitWs (firstLine request)) method none
      else if method ∈ bodyMethods then
        match findCRLF request with
        | none => .err "Bad request!"
        | some i =>
          match rfindCRLF request with
          | none => .err "Bad request!"
          | some j =>
            if i + 2 ≥ j then .err "Bad request!"
            else finishParse (splitWs (firstLine request)) method
                   (some ((request.drop (i + 2)).take (j - (i + 2))))
      else .err "Unsupported method!"

/-- Non-whitespace characters are accumulated by the tokenizer loop. -/
lemma splitWsAux_nonws (t : List Char) : ∀ (s acc : List Char),
    (∀ c ∈ t, isWs c = false) →
    splitWsAux (t ++ s) acc = splitWsAux s (t.reverse ++ acc) := by
  induction t with
  | nil => intro s acc _; simp
  | cons c rest ih =>
    intro s acc h
    have hc : isWs c = false := h c (List.mem_cons_self c rest)
    have hrest : ∀ x ∈ rest, isWs x = false := by
      intro x hx; exact h x (List.mem_cons_of_mem c hx)
    simp only [List.cons_append, splitWsAux, hc, Bool.false_eq_true, if_false,
      List.append_eq]
    rw [ih s (c :: acc) hrest]
    simp

/-- A space flushes a non-empty accumulator as one token. -/
lemma splitWsAux_space (s acc : List Char) (h : acc ≠ []) :
    splitWsAux (' ' :: s) acc = acc.reverse :: splitWsAux s [] := by
  simp [splitWsAux, isWs, h]

/-- Tokenizing `"a b c"` for non-empty whitespace-free `a`, `b`, `c` yields
exactly the three tokens. -/
lemma splitWs_three (a b c : List Char)
    (ha : a ≠ []) (hb : b ≠ []) (hc : c ≠ [])
    (hwa : ∀ x ∈ a, isWs x = false) (hwb : ∀ x ∈ b, isWs x = false)
    (hwc : ∀ x ∈ c, isWs x = false) :
    splitWs (a ++ ' ' :: (b ++ ' ' :: c)) = [a, b, c] := by
  have hra : a.reverse ≠ [] := by simpa using ha
  have hrb : b.reverse ≠ [] := by simpa using hb
  have hrc : c.reverse ≠ [] := by simpa using hc
  unfold splitWs
  rw [splitWsAux_nonws a _ [] hwa, List.append_nil,
    splitWsAux_space _ _ hra, List.reverse_reverse]
  rw [splitWsAux_nonws b _ [] hwb, List.append_nil,
    splitWsAux_space _ _ hrb, List.reverse_reverse]
  rw [show c = c ++ [] from by simp, splitWsAux_nonws c [] [] hwc]
  simp [splitWsAux, hrc]

/-- Taking up to the first line feed stops exactly at an appended `'\n'`. -/
lemma takeUntilLF_append (a b : List Char) (h : ∀ c ∈ a, c ≠ '\n') :
    takeUntilLF (a ++ '\n' :: b) = a := by
  induction a with
  | nil => simp [takeUntilLF]
  | cons c rest ih =>
    have hc : c ≠ '\n' := h c (List.mem_cons_self c rest)
    have hrest : ∀ x ∈ rest, x ≠ '\n' := by
      intro x hx; exact h x (List.mem_cons_of_mem c hx)
    have hb : (c != '\n') = true := by simpa [bne_iff_ne] using hc
    simp only [List.cons_append, takeUntilLF] at *
    simp [List.takeWhile_cons, hb, ih hrest]

/-- Stripping the trailing carriage return of `l ++ ['\r']` gives `l`. -/
lemma stripTrailingCR_append (l : List Char) :
    stripTrailingCR (l ++ ['\r']) = l := by
  simp [stripTrailingCR, List.getLast?_concat, List.dropLast_concat]

/-- First line of `line ++ "\r\n"` when `line` holds no line feed. -/
lemma firstLine_append_CRLF (line : List Char) (h : ∀ c ∈ line, c ≠ '\n') :
    firstLine (line ++ ['\r', '\n']) = line := by
  have hmem : '\n' ∈ line ++ ['\r', '\n'] := by simp
  have hsplit : line ++ ['\r', '\n'] = (line ++ ['\r']) ++ '\n' :: [] := by simp
  have hnolf : ∀ c ∈ line ++ ['\r'], c ≠ '\n' := by
    intro c hcm
    rcases List.mem_append.mp hcm with hcl | hcr
    · exact h c hcl
    · simp only [List.mem_singleton] at hcr; subst hcr; decide
  rw [firstLine, if_pos hmem, hsplit, takeUntilLF_append _ _ hnolf,
    stripTrailingCR_append]

/-- Appending a CRLF terminator makes `ends_with "\r\n"` true. -/
lemma endsWithCRLF_append (x : List Char) :
    endsWithCRLF (x ++ ['\r', '\n']) = true := by
  simp [endsWithCRLF, List.reverse_append]

/-- A string that ends with CRLF splits off its CRLF suffix. -/
lemma endsWithCRLF_exists {r : List Char} (h : endsWithCRLF r = true) :
    ∃ x, r = x ++ ['\r', '\n'] := by
  have h2 : r.reverse.take 2 = ['\n', '\r'] := by
    simpa [endsWithCRLF] using h
  refine ⟨(r.reverse.drop 2).reverse, ?_⟩
  conv_lhs => rw [← List.reverse_reverse r, ← List.take_append_drop 2 r.reverse]
  rw [h2]
  simp

/-- A string that ends with CRLF is non-empty. -/
lemma ne_nil_of_endsWithCRLF {r : List Char} (h : endsWithCRLF r = true) :
    r ≠ [] := by
  obtain ⟨x, rfl⟩ := endsWithCRLF_exists h
  simp

/-- A string that contains a CRLF has a first occurrence. -/
lemma findCRLF_isSome (x b : List Char) :
    (findCRLF (x ++ '\r' :: '\n' :: b)).isSome = true := by
  induction x with
  | nil => simp [findCRLF]
  | cons c rest ih =>
    rw [List.cons_append, findCRLF]
    by_cases hc : c = '\r' ∧ (rest ++ '\r' :: '\n' :: b).head? = some '\n'
    · rw [if_pos hc]; rfl
    · rw [if_neg hc]
      cases h : findCRLF (rest ++ '\r' :: '\n' :: b) with
      | some j => simp
      | none => rw [h] at ih; simp at ih

/-- A string that contains a CRLF has a last occurrence. -/
lemma rfindCRLF_isSome (x b : List Char) :
    (rfindCRLF (x ++ '\r' :: '\n' :: b)).isSome = true := by
  induction x with
  | nil =>
    rw [List.nil_append, rfindCRLF]
    cases h : rfindCRLF ('\n' :: b) with
    | some j => simp
    | none => simp
  | cons c rest ih =>
    rw [List.cons_append, rfindCRLF]
    cases h : rfindCRLF (rest ++ '\r' :: '\n' :: b) with
    | some j => simp
    | none => rw [h] at ih; simp at ih

/-- The two method groups are disjoint. -/
lemma body_not_noBody : ∀ m ∈ bodyMethods, m ∉ noBodyMethods := by decide

/-- Every no-body method token is non-empty and whitespace-free. -/
lemma noBody_token_shape :
    ∀ m ∈ noBodyMethods, m ≠ [] ∧ ∀ c ∈ m, isWs c = false := by decide

/-- A non-whitespace character is not a line feed. -/
lemma ne_lf_of_not_ws {c : Char} (h : isWs c = false) : c ≠ '\n' := by
  intro hc; subst hc; simp [isWs] at h

/-- When the tokenizer produced a first token the input was non-empty. -/
lemma ne_nil_of_head_some {r M : List Char}
    (h : (splitWs (firstLine r)).head? = some M) : r ≠ [] := by
  intro hr; subst hr
  simp [firstLine, splitWs, splitWsAux] at h

/-- Inversion for the tail of the parser: a successful result carries the
accepted version literal, the matched method, and the body handed over. -/
lemma finishParse_ok {parts : List (List Char)} {method : List Char}
    {body : Option (List Char)} {req : HttpRequest}
    (h : finishParse parts method body = ParseResult.ok req) :
    req.http_version = httpOneOne ∧ req.http_method = method ∧ req.body = body := by
  unfold finishParse at h
  split at h
  · cases h
  · split at h
    · cases h
    · split at h
      · cases h
      · rename_i hv
        cases h
        exact ⟨by simpa using hv, rfl, rfl⟩

/-- The parser tail never panics. -/
lemma finishParse_ne_panics (parts : List (List Char)) (method : List Char)
    (body : Option (List Char)) :
    finishParse parts method body ≠ ParseResult.panics := by
  intro h
  unfold finishParse at h
  split at h
  · cases h
  · split at h
    · cases h
    · split at h <;> cases h

/-- On second and third tokens `t`, `v`, the parser tail is the version gate. -/
lemma finishParse_cons3 (M t v : List Char) (rest : List (List Char))
    (b : Option (List Char)) :
    finishParse (M :: t :: v :: rest) M b =
      if v ≠ httpOneOne then ParseResult.err "Only HTTP/1.1 is supported!"
      else ParseResult.ok ⟨M, t, v, b⟩ := by
  simp [finishParse]

/-- Reduction of `parse_request` for a no-body method under a passing CRLF
terminator check. -/
lemma parse_request_eq_noBody {r M : List Char}
    (hhead : (splitWs (firstLine r)).head? = some M)
    (hend : endsWithCRLF r = true) (hM : M ∈ noBodyMethods) :
    parse_request r = finishParse (splitWs (firstLine r)) M none := by
  have hne : r ≠ [] := ne_nil_of_head_some hhead
  simp [parse_request, hne, hhead, hend, hM]

/-- Reduction of `parse_request` for a body method whose CRLF boundaries
leave room for a body: the result is the parser tail fed the boundary slice. -/
lemma parse_request_eq_body {r M : List Char} {i j : Nat}
    (hhead : (splitWs (firstLine r)).head? = some M)
    (hend : endsWithCRLF r = true) (hM : M ∈ bodyMethods)
    (hf : findCRLF r = some i) (hrf : rfindCRLF r = some j)
    (hlt : i + 2 < j) :
    parse_request r = finishParse (splitWs (firstLine r)) M
      (some ((r.drop (i + 2)).take (j - (i + 2)))) := by
  have hne : r ≠ [] := ne_nil_of_head_some hhead
  have hnb : M ∉ noBodyMethods := body_not_noBody M hM
  have hge : ¬ i + 2 ≥ j := by omega
  simp [parse_request, hne, hhead, hend, hM, hnb, hf, hrf, hge]

/-- A body method whose CRLF boundaries are absent or leave no room for a
body makes the parse fail with the source's `Bad request!` error, no matter
what the rest of the request line looks like. -/
lemma malformed_body_err {r M : List Char}
    (hhead : (splitWs (firstLine r)).head? = some M)
    (hM : M ∈ bodyMethods)
    (hbad : findCRLF r = none ∨
      ∃ i j, findCRLF r = some i ∧ rfindCRLF r = some j ∧ j ≤ i + 2) :
    parse_request r = ParseResult.err "Bad request!" := by
  have hne : r ≠ [] := ne_nil_of_head_some hhead
  have hnb : M ∉ noBodyMethods := body_not_noBody M hM
  cases hend : endsWithCRLF r with
  | false => simp [parse_request, hne, hhead, hend]
  | true =>
    obtain ⟨x, rfl⟩ := endsWithCRLF_exists hend
    rcases hbad with hnone | ⟨i, j, hf, hrf, hle⟩
    · have := findCRLF_isSome x []
      rw [show x ++ '\r' :: '\n' :: [] = x ++ ['\r', '\n'] from rfl, hnone] at this
      simp at this
    · have hge : i + 2 ≥ j := hle
      simp [parse_request, hne, hhead, hend, hM, hnb, hf, hrf, hge]

/-- Inversion for the whole parser: success pins the version to the literal
and splits on the two method groups, with the body present exactly in the
body-bearing group. -/
lemma parse_ok_inv {r : List Char} {req : HttpRequest}
    (h : parse_request r = ParseResult.ok req) :
    req.http_version = httpOneOne ∧
      ((req.http_method ∈ noBodyMethods ∧ req.body = none) ∨
       (req.http_method ∈ bodyMethods ∧ ∃ b, req.body = some b)) := by
  unfold parse_request at h
  split at h
  · cases h
  · split at h
    · cases h
    · rename_i method heq
      split at h
      · cases h
      · split at h
        · rename_i hmem
          obtain ⟨hv, hm, hb⟩ := finishParse_ok h
          exact ⟨hv, Or.inl ⟨by rw [hm]; exact hmem, hb⟩⟩
        · split at h
          · rename_i hmem
            split at h
            · cases h
            · split at h
              · cases h
              · split at h
                · cases h
                · obtain ⟨hv, hm, hb⟩ := finishParse_ok h
                  exact ⟨hv, Or.inr ⟨by rw [hm]; exact hmem, _, hb⟩⟩
          · cases h

/-- A non-empty input never panics: each branch of the parser returns. -/
lemma parse_not_panics {r : List Char} (hr : r ≠ []) :
    parse_request r ≠ ParseResult.panics := by
  intro h
  unfold parse_request at h
  rw [if_neg hr] at h
  split at h
  · cases h
  · split at h
    · cases h
    · split at h
      · exact finishParse_ne_panics _ _ _ h
      · split at h
        · split at h
          · cases h
          · split at h
            · cases h
            · split at h
              · cases h
              · exact finishParse_ne_panics _ _ _ h
        · cases h

/-- C1 counterexample: the input `"POST\r\nx\r\n"` has a body-bearing first
token and CRLF boundaries with start `4 + 2` strictly below end `7`, yet the
parse does not succeed — it fails with `URI not specified` because the
request line has no second token.  The claim's hypotheses do not suffice for
success. -/
theorem c1_counterexample :
    ((splitWs (firstLine "POST\r\nx\r\n".data)).head? = some "POST".data ∧
     "POST".data ∈ bodyMethods ∧
     findCRLF "POST\r\nx\r\n".data = some 4 ∧
     rfindCRLF "POST\r\nx\r\n".data = some 7 ∧
     4 + 2 < 7) ∧
    parse_request "POST\r\nx\r\n".data = ParseResult.err "URI not specified" := by
  decide

/-- C1 (amended): when additionally the request line tokenizes to a
body-bearing method, a target, and the literal `HTTP/1.1`, and the input
ends with CRLF, a first/last CRLF pair with `start < end` makes the parse
succeed with body exactly the verbatim slice `request[start..end]`. -/
theorem c1_body_slice_amended (r M t : List Char) (i j : Nat)
    (htok : splitWs (firstLine r) = [M, t, httpOneOne])
    (hM : M ∈ bodyMethods)
    (hend : endsWithCRLF r = true)
    (hf : findCRLF r = some i)
    (hrf : rfindCRLF r = some j)
    (hlt : i + 2 < j) :
    parse_request r =
      ParseResult.ok ⟨M, t, httpOneOne,
        some ((r.drop (i + 2)).take (j - (i + 2)))⟩ := by
  have hhead : (splitWs (firstLine r)).head? = some M := by rw [htok]; rfl
  rw [parse_request_eq_body hhead hend hM hf hrf hlt, htok, finishParse_cons3]
  simp

/-- Witness for the amended C1 at the concrete input
`"POST / HTTP/1.1\r\nhello\r\n"` with boundaries 15 and 22. -/
theorem c1_body_slice_amended_witness :
    "POST".data ∈ bodyMethods ∧
    parse_request "POST / HTTP/1.1\r\nhello\r\n".data =
      ParseResult.ok ⟨"POST".data, "/".data, httpOneOne,
        some (("POST / HTTP/1.1\r\nhello\r\n".data.drop (15 + 2)).take (22 - (15 + 2)))⟩ :=
  ⟨by decide,
   c1_body_slice_amended "POST / HTTP/1.1\r\nhello\r\n".data "POST".data "/".data 15 22
     (by decide) (by decide) (by decide) (by decide) (by decide) (by decide)⟩

/-- C2 counterexample: on `"POST /messages HTTP/1.1\r\n\r\n{id: 1}\r\n"` the
parse succeeds, but the body slice starts right after the FIRST CRLF, so it
is `"\r\n{id: 1}"` — it contains the second CRLF — and not `"{id: 1}"`. -/
theorem c2_counterexample :
    parse_request "POST /messages HTTP/1.1\r\n\r\n\x7bid: 1\x7d\r\n".data =
      ParseResult.ok ⟨"POST".data, "/messages".data, httpOneOne,
        some "\r\n\x7bid: 1\x7d".data⟩ ∧
    some "\r\n\x7bid: 1\x7d".data ≠ some "\x7bid: 1\x7d".data := by
  decide

/-- C2 (amended): on `"POST /messages HTTP/1.1\r\n\r\n{id: 1}\r\n"` the parse
succeeds with body exactly `"\r\n{id: 1}"`, the verbatim characters between
the end of the first CRLF and the start of the last CRLF. -/
theorem c2_concrete_post_amended :
    parse_request "POST /messages HTTP/1.1\r\n\r\n\x7bid: 1\x7d\r\n".data =
      ParseResult.ok ⟨"POST".data, "/messages".data, httpOneOne,
        some "\r\n\x7bid: 1\x7d".data⟩ := by
  decide

/-- C3: a body-bearing first token whose CRLF boundaries are absent or leave
no room for a body (`start ≥ end`) always fails with the source's
`Bad request!` error (the spec's `MalformedRequest` kind). -/
theorem c3_malformed_body_bounds (r M : List Char)
    (hhead : (splitWs (firstLine r)).head? = some M)
    (hM : M ∈ bodyMethods)
    (hbad : findCRLF r = none ∨
      ∃ i j, findCRLF r = some i ∧ rfindCRLF r = some j ∧ j ≤ i + 2) :
    parse_request r = ParseResult.err "Bad request!" :=
  malformed_body_err hhead hM hbad

/-- Witness for C3 at the single-CRLF input `"POST / HTTP/1.1\r\n"`, whose
first and last CRLF coincide at index 15. -/
theorem c3_malformed_body_bounds_witness :
    "POST".data ∈ bodyMethods ∧
    parse_request "POST / HTTP/1.1\r\n".data = ParseResult.err "Bad request!" :=
  ⟨by decide,
   c3_malformed_body_bounds "POST / HTTP/1.1\r\n".data "POST".data (by decide) (by decide)
     (Or.inr ⟨15, 15, by decide, by decide, by decide⟩)⟩

/-- C4 counterexample: `"FOO"` has an unrecognized first token, but the
parse fails with `Bad request!` (the trailing-CRLF guard fires before method
classification), not with `Unsupported method!` as the claim asserts for
every input with an unrecognized method. -/
theorem c4_counterexample :
    ((splitWs (firstLine "FOO".data)).head? = some "FOO".data ∧
     "FOO".data ∉ noBodyMethods ∧ "FOO".data ∉ bodyMethods) ∧
    parse_request "FOO".data = ParseResult.err "Bad request!" ∧
    parse_request "FOO".data ≠ ParseResult.err "Unsupported method!" := by
  decide

/-- C4 (amended): a body-bearing first token with malformed body boundaries
always fails with `Bad request!` (`MalformedRequest`), even with the target
or version token missing; and an unrecognized first token on an input that
ends with CRLF fails with `Unsupported method!` even when no target token
follows. -/
theorem c4_error_order_amended :
    (∀ r M, (splitWs (firstLine r)).head? = some M → M ∈ bodyMethods →
      (findCRLF r = none ∨
        ∃ i j, findCRLF r = some i ∧ rfindCRLF r = some j ∧ j ≤ i + 2) →
      parse_request r = ParseResult.err "Bad request!") ∧
    (∀ r M, (splitWs (firstLine r)).head? = some M → endsWithCRLF r = true →
      M ∉ noBodyMethods → M ∉ bodyMethods →
      parse_request r = ParseResult.err "Unsupported method!") := by
  constructor
  · intro r M hhead hM hbad
    exact malformed_body_err hhead hM hbad
  · intro r M hhead hend hn hb
    have hne : r ≠ [] := ne_nil_of_head_some hhead
    simp [parse_request, hne, hhead, hend, hn, hb]

/-- Witness for the amended C4: `"POST\r\n"` gives `Bad request!` rather than
a missing-target error, and `"FOO\r\n"` gives `Unsupported method!`. -/
theorem c4_error_order_amended_witness :
    parse_request "POST\r\n".data = ParseResult.err "Bad request!" ∧
    parse_request "FOO\r\n".data = ParseResult.err "Unsupported method!" :=
  ⟨c4_error_order_amended.1 "POST\r\n".data "POST".data (by decide) (by decide)
     (Or.inr ⟨4, 4, by decide, by decide, by decide⟩),
   c4_error_order_amended.2 "FOO\r\n".data "FOO".data (by decide) (by decide)
     (by decide) (by decide)⟩

/-- C5: on any input that reaches version validation (first line tokenizes
with a recognized method, body boundaries are sound where required, target
and version tokens are present, terminator check passes), the parse succeeds
exactly when the third token is the literal `HTTP/1.1`; any other version
token gives the `Only HTTP/1.1 is supported!` error (`UnsupportedVersion`);
and every successful parse whatsoever carries version `HTTP/1.1`. -/
theorem c5_version_gate :
    (∀ r M t v rest, splitWs (firstLine r) = M :: t :: v :: rest →
      endsWithCRLF r = true →
      (M ∈ noBodyMethods ∨ (M ∈ bodyMethods ∧
        ∃ i j, findCRLF r = some i ∧ rfindCRLF r = some j ∧ i + 2 < j)) →
      ((v ≠ httpOneOne →
          parse_request r = ParseResult.err "Only HTTP/1.1 is supported!") ∧
       ((∃ req, parse_request r = ParseResult.ok req) ↔ v = httpOneOne))) ∧
    (∀ r req, parse_request r = ParseResult.ok req →
      req.http_version = httpOneOne) := by
  constructor
  · intro r M t v rest htok hend hreach
    have hhead : (splitWs (firstLine r)).head? = some M := by rw [htok]; rfl
    have hred : ∃ b, parse_request r = finishParse (M :: t :: v :: rest) M b := by
      rcases hreach with hnb | ⟨hb, i, j, hf, hrf, hlt⟩
      · exact ⟨none, by rw [← htok]; exact parse_request_eq_noBody hhead hend hnb⟩
      · exact ⟨_, by rw [← htok]; exact parse_request_eq_body hhead hend hb hf hrf hlt⟩
    obtain ⟨b, hred⟩ := hred
    rw [hred, finishParse_cons3]
    constructor
    · intro hv; rw [if_pos hv]
    · constructor
      · rintro ⟨req, hok⟩
        by_cases hv : v = httpOneOne
        · exact hv
        · rw [if_pos hv] at hok; cases hok
      · intro hv
        subst hv
        exact ⟨⟨M, t, httpOneOne, b⟩, by simp⟩
  · intro r req h
    exact (parse_ok_inv h).1

/-- Witness for C5 at `"GET / HTTP/2.0\r\n"`: a reachable version check with a
non-`HTTP/1.1` token yields the unsupported-version error. -/
theorem c5_version_gate_witness :
    "HTTP/2.0".data ≠ httpOneOne ∧
    parse_request "GET / HTTP/2.0\r\n".data =
      ParseResult.err "Only HTTP/1.1 is supported!" :=
  ⟨by decide,
   (c5_version_gate.1 "GET / HTTP/2.0\r\n".data "GET".data "/".data "HTTP/2.0".data []
     (by decide) (by decide) (Or.inl (by decide))).1 (by decide)⟩

/-- C6: for every no-body method `M` and non-empty whitespace-free target
`t`, the input `"M t HTTP/1.1\r\n"` parses successfully to method `M`,
target `t`, version `HTTP/1.1`, and no body. -/
theorem c6_no_body_success (M t : List Char)
    (hM : M ∈ noBodyMethods) (ht : t ≠ [])
    (hws : ∀ c ∈ t, isWs c = false) :
    parse_request (M ++ (' ' :: (t ++ (' ' :: (httpOneOne ++ ['\r', '\n']))))) =
      ParseResult.ok ⟨M, t, httpOneOne, none⟩ := by
  obtain ⟨hMne, hMws⟩ := noBody_token_shape M hM
  have hline : M ++ (' ' :: (t ++ (' ' :: (httpOneOne ++ ['\r', '\n'])))) =
      (M ++ (' ' :: (t ++ (' ' :: httpOneOne)))) ++ ['\r', '\n'] := by simp
  have hvlf : ∀ c ∈ httpOneOne, c ≠ '\n' := by decide
  have hnolf : ∀ c ∈ M ++ (' ' :: (t ++ (' ' :: httpOneOne))), c ≠ '\n' := by
    intro c hc
    rcases List.mem_append.mp hc with h1 | h2
    · exact ne_lf_of_not_ws (hMws c h1)
    · rcases List.mem_cons.mp h2 with rfl | h3
      · decide
      · rcases List.mem_append.mp h3 with h4 | h5
        · exact ne_lf_of_not_ws (hws c h4)
        · rcases List.mem_cons.mp h5 with rfl | h6
          · decide
          · exact hvlf c h6
    -- done
  have hfl : firstLine ((M ++ (' ' :: (t ++ (' ' :: httpOneOne)))) ++ ['\r', '\n']) =
      M ++ (' ' :: (t ++ (' ' :: httpOneOne))) :=
    firstLine_append_CRLF _ hnolf
  have htok : splitWs (M ++ (' ' :: (t ++ (' ' :: httpOneOne)))) = [M, t, httpOneOne] :=
    splitWs_three M t httpOneOne hMne ht (by decide) hMws hws (by decide)
  rw [hline]
  have hhead : (splitWs (firstLine ((M ++ (' ' :: (t ++ (' ' :: httpOneOne)))) ++
      ['\r', '\n']))).head? = some M := by rw [hfl, htok]; rfl
  rw [parse_request_eq_noBody hhead (endsWithCRLF_append _) hM, hfl, htok,
    finishParse_cons3]
  simp

/-- Witness for C6 at `"GET / HTTP/1.1\r\n"`. -/
theorem c6_no_body_success_witness :
    "GET".data ∈ noBodyMethods ∧
    parse_request ("GET".data ++ (' ' :: ("/".data ++ (' ' ::
      (httpOneOne ++ ['\r', '\n']))))) =
      ParseResult.ok ⟨"GET".data, "/".data, httpOneOne, none⟩ :=
  ⟨by decide, c6_no_body_success "GET".data "/".data (by decide) (by decide) (by decide)⟩

/-- C7: every successful parse has a body exactly when its method is in the
body-bearing group, and no body whenever its method is in the no-body
group. -/
theorem c7_body_iff_body_method (r : List Char) (req : HttpRequest)
    (h : parse_request r = ParseResult.ok req) :
    (req.body.isSome = true ↔ req.http_method ∈ bodyMethods) ∧
    (req.http_method ∈ noBodyMethods → req.body = none) := by
  rcases (parse_ok_inv h).2 with ⟨hm, hb⟩ | ⟨hm, b, hb⟩
  · constructor
    · constructor
      · intro hfalse; rw [hb] at hfalse; cases hfalse
      · intro hmem; exact absurd hm (body_not_noBody _ hmem)
    · intro _; exact hb
  · constructor
    · simp [hb, hm]
    · intro hmem; exact absurd hmem (body_not_noBody _ hm)

/-- Witness for C7 on the successful parse of `"GET / HTTP/1.1\r\n"`. -/
theorem c7_body_iff_body_method_witness :
    ((⟨"GET".data, "/".data, httpOneOne, none⟩ : HttpRequest).body.isSome = true ↔
      (⟨"GET".data, "/".data, httpOneOne, none⟩ : HttpRequest).http_method ∈ bodyMethods) ∧
    ((⟨"GET".data, "/".data, httpOneOne, none⟩ : HttpRequest).http_method ∈ noBodyMethods →
      (⟨"GET".data, "/".data, httpOneOne, none⟩ : HttpRequest).body = none) :=
  c7_body_iff_body_method "GET / HTTP/1.1\r\n".data
    ⟨"GET".data, "/".data, httpOneOne, none⟩ (by decide)

/-- C8: the code panics on the empty input (the `unwrap` of `lines().next()`
finds `None`), contradicting the claim that every no-line-terminator input
gets a returned error; every NON-empty input with no line feed does return
an error. -/
theorem c8_error_return_vs_panic :
    parse_request [] = ParseResult.panics ∧
    (∀ r : List Char, r ≠ [] → '\n' ∉ r →
      ∃ e, parse_request r = ParseResult.err e) := by
  constructor
  · rfl
  · intro r hne hlf
    have hend : endsWithCRLF r = false := by
      cases hv : endsWithCRLF r with
      | false => rfl
      | true =>
        obtain ⟨x, rfl⟩ := endsWithCRLF_exists hv
        exact absurd (by simp : '\n' ∈ x ++ ['\r', '\n']) hlf
    cases hhead : (splitWs (firstLine r)).head? with
    | none => exact ⟨"Method not specified!", by simp [parse_request, hne, hhead]⟩
    | some M => exact ⟨"Bad request!", by simp [parse_request, hne, hhead, hend]⟩

/-- Witness for the returned-error half of C8 at the input `"GET"`. -/
theorem c8_error_return_vs_panic_witness :
    ∃ e, parse_request "GET".data = ParseResult.err e :=
  c8_error_return_vs_panic.2 "GET".data (by decide) (by decide)

/-- C9: the parse panics exactly on the empty input; every non-empty input
yields a returned `ok` or `err` outcome. -/
theorem c9_panics_iff_empty (r : List Char) :
    parse_request r = ParseResult.panics ↔ r = [] := by
  constructor
  · intro h
    by_contra hr
    exact parse_not_panics hr h
  · intro h; subst h; rfl

/-- C10 counterexample: the empty input does not end with CRLF, yet the
parse does not return an error — it panics. -/
theorem c10_counterexample :
    endsWithCRLF [] = false ∧ ¬ ∃ e, parse_request [] = ParseResult.err e := by
  constructor
  · rfl
  · rintro ⟨e, h⟩
    rw [show parse_request [] = ParseResult.panics from rfl] at h
    cases h

/-- C10 (amended): every NON-empty input that does not end with CRLF
returns an error, and whenever such an input has a first token at all the
error is the generic `Bad request!` — never `Unsupported method!` — because
the terminator check runs after method extraction and before method
classification. -/
theorem c10_no_trailing_crlf_amended (r : List Char) (hne : r ≠ [])
    (hend : endsWithCRLF r = false) :
    (∃ e, parse_request r = ParseResult.err e) ∧
    (∀ M, (splitWs (firstLine r)).head? = some M →
      parse_request r = ParseResult.err "Bad request!") := by
  constructor
  · cases hhead : (splitWs (firstLine r)).head? with
    | none => exact ⟨"Method not specified!", by simp [parse_request, hne, hhead]⟩
    | some M => exact ⟨"Bad request!", by simp [parse_request, hne, hhead, hend]⟩
  · intro M hhead
    simp [parse_request, hne, hhead, hend]

/-- Witness for the amended C10 at the CRLF-less input `"GET /"`. -/
theorem c10_no_trailing_crlf_amended_witness :
    endsWithCRLF "GET /".data = false ∧
    parse_request "GET /".data = ParseResult.err "Bad request!" :=
  ⟨by decide,
   (c10_no_trailing_crlf_amended "GET /".data (by decide) (by decide)).2
     "GET".data (by decide)⟩

end Chatty
